import Mathlib

/-!
Verification of the forecast sensitivity model of the cfo-dashboard
repository.  Numeric values are embedded as exact rationals (`ℚ`); the
only floating-point behaviour that matters to the properties below is
division by a zero denominator, which the numpy arithmetic used by the
dashboards maps to `inf`/`-inf`/`nan` (with a warning, not an error).
That behaviour is modelled explicitly by `NpVal`/`npPercent`.
-/

/-- Result of a numpy floating-point percentage computation: a finite value,
or one of the non-finite values that division by zero silently produces. -/
inductive NpVal where
  | finite (q : ℚ)
  | posInf
  | negInf
  | nan
deriving DecidableEq, Repr

/-- Embeds `(modified - base) / base * 100` under numpy float semantics:
for a zero denominator the result is `inf`, `-inf` or `nan` according to the
sign of the numerator (a warning is printed but no error is raised); for a
nonzero denominator the result is the exact rational value. -/
def npPercent (modified base : ℚ) : NpVal :=
  if base = 0 then
    if modified - base > 0 then NpVal.posInf
    else if modified - base < 0 then NpVal.negInf
    else NpVal.nan
  else NpVal.finite ((modified - base) / base * 100)

/-! ### Cashflow dashboard (forecast_pkg/cashflow_dashboard.py) -/

/-- The fifteen numeric fields of a cashflow quarter record, exactly the
keys produced by `generate_realistic_sample_data`. -/
inductive CF where
  | salesRevenue
  | accountsReceivableDays
  | rawMaterialCosts
  | laborCosts
  | accountsPayableDays
  | capex
  | inventoryTurnover
  | operatingExpenses
  | debtRepayments
  | taxPayments
  | seasonalFactor
  | customerPrepayments
  | supplierCreditDays
  | dividendPayments
  | fxRate
deriving DecidableEq, Repr

/-- One quarter of cashflow data: the `'quarter'` label plus the mapping
from field name to numeric value (the Python dict). -/
structure CFRecord where
  quarter : String
  vals : CF → ℚ

/-- The dict update `{**quarter, param: v}`: a new record with field
`param` replaced by `v` and everything else (including the label) kept. -/
def updateParam (q : CFRecord) (param : CF) (v : ℚ) : CFRecord :=
  { q with vals := fun f => if f = param then v else q.vals f }

/-- `calculate_cashflow`: per quarter, net cashflow = cash inflow minus
cash outflow, with `days_in_quarter = 91` and the variation factor
`1 + variation_percentage / 100` applied exactly as in the source.
Division is exact rational division. -/
def calculate_cashflow (data : List CFRecord) (variation_percentage : ℚ) :
    List (String × ℚ) :=
  data.map fun q =>
    let variation_factor := 1 + variation_percentage / 100
    let cash_inflow :=
      q.vals CF.salesRevenue * variation_factor *
          (91 / q.vals CF.accountsReceivableDays) +
        q.vals CF.customerPrepayments * variation_factor
    let cash_outflow :=
      (q.vals CF.rawMaterialCosts + q.vals CF.laborCosts) * variation_factor *
          (91 / q.vals CF.accountsPayableDays) +
        q.vals CF.capex * variation_factor +
        q.vals CF.operatingExpenses * variation_factor +
        q.vals CF.debtRepayments +
        q.vals CF.taxPayments * variation_factor +
        q.vals CF.dividendPayments
    (q.quarter, cash_inflow - cash_outflow)

/-- `sum(q['netCashflow'] for q in calculate_cashflow(d, v))`. -/
def totalNetCashflow (data : List CFRecord) (variation_percentage : ℚ) : ℚ :=
  ((calculate_cashflow data variation_percentage).map Prod.snd).sum

/-- The baseline aggregate of the cashflow dashboard: total net cashflow at
variation 0 (`calculate_cashflow` is called with its default argument). -/
def cashflowAggregate (data : List CFRecord) : ℚ :=
  totalNetCashflow data 0

/-- The parameter list of the cashflow `sensitivity_analysis`, in source
order. -/
def cfParameters : List CF :=
  [CF.salesRevenue, CF.accountsReceivableDays, CF.rawMaterialCosts,
   CF.laborCosts, CF.accountsPayableDays, CF.capex, CF.inventoryTurnover,
   CF.operatingExpenses, CF.debtRepayments, CF.taxPayments,
   CF.seasonalFactor, CF.customerPrepayments, CF.supplierCreditDays,
   CF.dividendPayments, CF.fxRate]

/-- `increased_data`: every quarter's `param` multiplied by
`(1 + variation_percentage / 100)`, built as new records. -/
def increasedData (base_data : List CFRecord) (param : CF)
    (variation_percentage : ℚ) : List CFRecord :=
  base_data.map fun q =>
    updateParam q param (q.vals param * (1 + variation_percentage / 100))

/-- `decreased_data`: every quarter's `param` multiplied by
`(1 - variation_percentage / 100)`. -/
def decreasedData (base_data : List CFRecord) (param : CF)
    (variation_percentage : ℚ) : List CFRecord :=
  base_data.map fun q =>
    updateParam q param (q.vals param * (1 - variation_percentage / 100))

/-- The pair of impact results recorded for one parameter. -/
structure CFPair where
  increased : NpVal
  decreased : NpVal
deriving DecidableEq, Repr

/-- The body of the cashflow sensitivity loop for one parameter: total base,
increased and decreased net cashflows, and the two percentage changes. -/
def cfImpactPair (base_data : List CFRecord) (variation_percentage : ℚ)
    (param : CF) : CFPair :=
  let total_base := totalNetCashflow base_data 0
  let total_increased :=
    totalNetCashflow (increasedData base_data param variation_percentage) 0
  let total_decreased :=
    totalNetCashflow (decreasedData base_data param variation_percentage) 0
  { increased := npPercent total_increased total_base
    decreased := npPercent total_decreased total_base }

/-- `sensitivity_analysis` of the cashflow dashboard: one impact pair per
parameter, keyed by parameter, in source order. -/
def sensitivity_analysis (base_data : List CFRecord)
    (variation_percentage : ℚ) : List (CF × CFPair) :=
  cfParameters.map fun param =>
    (param, cfImpactPair base_data variation_percentage param)

/-! ### The Sensitivity Engine of the specification -/

/-- Modelled from the spec: the perturbation step of the Sensitivity
Engine, multiplying the named parameter's value by `(1 + level / 100)` on a
record and leaving every other field unchanged. -/
def specPerturb {α : Type} [DecidableEq α] (p : α) (level : ℚ)
    (r : α → ℚ) : α → ℚ :=
  fun f => if f = p then r f * (1 + level / 100) else r f

/-- Modelled from the spec: the perturbed series, obtained by applying the
perturbation to every record of the baseline. -/
def specPerturbSeries {α : Type} [DecidableEq α] (p : α) (level : ℚ)
    (d : List (α → ℚ)) : List (α → ℚ) :=
  d.map (specPerturb p level)

/-- Modelled from the spec: the Impact Result
`(aggregate(perturbed) - aggregate(baseline)) / aggregate(baseline) * 100`
of the generic Sensitivity Engine. -/
def specImpact {α : Type} [DecidableEq α]
    (aggregate : List (α → ℚ) → ℚ) (baseline : List (α → ℚ))
    (p : α) (level : ℚ) : ℚ :=
  (aggregate (specPerturbSeries p level baseline) - aggregate baseline) /
      aggregate baseline * 100

/-- The spec's generic perturbation applied to cashflow records (labels
kept, values perturbed). -/
def specPerturbCF (p : CF) (level : ℚ) (d : List CFRecord) : List CFRecord :=
  d.map fun q => { q with vals := specPerturb p level q.vals }

/-- Modelled from the spec: the Impact Result of the Sensitivity Engine
instantiated with the cashflow dashboard's aggregation function. -/
def specImpactCF (d : List CFRecord) (p : CF) (level : ℚ) : ℚ :=
  (cashflowAggregate (specPerturbCF p level d) - cashflowAggregate d) /
      cashflowAggregate d * 100

/-! ### Revenue dashboard (forecast_pkg/revenue_dashboard.py) -/

/-- The six parameters of the revenue `perform_sensitivity_analysis`. -/
inductive RevParam where
  | topChannelValue
  | monthlyRecurringRevenue
  | newPromotionRevenue
  | customerAcquisitionCost
  | customerLifetimeValue
  | inventoryTurnover
deriving DecidableEq, Repr

/-- One quarter of revenue data, with the derived `revenueForecast` column
stored alongside the six input parameters as in `generate_sample_data`. -/
structure RevRecord where
  quarter : String
  topChannelValue : ℚ
  monthlyRecurringRevenue : ℚ
  newPromotionRevenue : ℚ
  customerAcquisitionCost : ℚ
  customerLifetimeValue : ℚ
  inventoryTurnover : ℚ
  revenueForecast : ℚ
deriving DecidableEq, Repr

/-- The value of the record column named by a parameter. -/
def readField (p : RevParam) (r : RevRecord) : ℚ :=
  match p with
  | RevParam.topChannelValue => r.topChannelValue
  | RevParam.monthlyRecurringRevenue => r.monthlyRecurringRevenue
  | RevParam.newPromotionRevenue => r.newPromotionRevenue
  | RevParam.customerAcquisitionCost => r.customerAcquisitionCost
  | RevParam.customerLifetimeValue => r.customerLifetimeValue
  | RevParam.inventoryTurnover => r.inventoryTurnover

/-- The revenue aggregation formula
`topChannelValue + monthlyRecurringRevenue * 3 + newPromotionRevenue`. -/
def revenueFormula (r : RevRecord) : ℚ :=
  r.topChannelValue + r.monthlyRecurringRevenue * 3 + r.newPromotionRevenue

/-- The per-record modification of `perform_sensitivity_analysis`: the
three revenue fields are scaled directly by `(1 + variation / 100)`;
`customerAcquisitionCost` scales `newPromotionRevenue` by the inverse
factor `(1 - variation / 100)`; `customerLifetimeValue` scales
`monthlyRecurringRevenue` by `(1 + variation / 100)`; `inventoryTurnover`
scales `topChannelValue` by the dampened factor `(1 + variation / 200)`. -/
def modifyRecord (param : RevParam) (variation : ℚ) (r : RevRecord) :
    RevRecord :=
  match param with
  | RevParam.topChannelValue =>
      { r with topChannelValue := r.topChannelValue * (1 + variation / 100) }
  | RevParam.monthlyRecurringRevenue =>
      { r with monthlyRecurringRevenue :=
          r.monthlyRecurringRevenue * (1 + variation / 100) }
  | RevParam.newPromotionRevenue =>
      { r with newPromotionRevenue :=
          r.newPromotionRevenue * (1 + variation / 100) }
  | RevParam.customerAcquisitionCost =>
      { r with newPromotionRevenue :=
          r.newPromotionRevenue * (1 - variation / 100) }
  | RevParam.customerLifetimeValue =>
      { r with monthlyRecurringRevenue :=
          r.monthlyRecurringRevenue * (1 + variation / 100) }
  | RevParam.inventoryTurnover =>
      { r with topChannelValue := r.topChannelValue * (1 + variation / 200) }

/-- `modified_data`: the per-record modification applied to every row. -/
def modifiedSeries (param : RevParam) (variation : ℚ)
    (base_data : List RevRecord) : List RevRecord :=
  base_data.map (modifyRecord param variation)

/-- `modified_revenue`: the aggregation formula recomputed and summed over
the modified series. -/
def modifiedRevenue (base_data : List RevRecord) (param : RevParam)
    (variation : ℚ) : ℚ :=
  ((modifiedSeries param variation base_data).map revenueFormula).sum

/-- `base_revenue = base_data['revenueForecast'].sum()`: the stored
forecast column, not the recomputed formula. -/
def baseRevenue (base_data : List RevRecord) : ℚ :=
  (base_data.map RevRecord.revenueForecast).sum

/-- The revenue aggregation function of the spec: the formula summed over
a series. -/
def revAggregate (data : List RevRecord) : ℚ :=
  (data.map revenueFormula).sum

/-- One cell of the revenue sensitivity table:
`(modified_revenue - base_revenue) / base_revenue * 100` under numpy
semantics. -/
def impactAtLevel (base_data : List RevRecord) (param : RevParam)
    (variation : ℚ) : NpVal :=
  npPercent (modifiedRevenue base_data param variation)
    (baseRevenue base_data)

/-- The percentage variations `[-20, -10, 0, 10, 20]`. -/
def variations : List ℚ := [-20, -10, 0, 10, 20]

/-- The source-order list of the six revenue parameters. -/
def revParameters : List RevParam :=
  [RevParam.topChannelValue, RevParam.monthlyRecurringRevenue,
   RevParam.newPromotionRevenue, RevParam.customerAcquisitionCost,
   RevParam.customerLifetimeValue, RevParam.inventoryTurnover]

/-- The three parameters scaled directly, exactly the membership list on
line 52 of the source. -/
def directRevParams : List RevParam :=
  [RevParam.topChannelValue, RevParam.monthlyRecurringRevenue,
   RevParam.newPromotionRevenue]

/-- `perform_sensitivity_analysis`: for each parameter the list of
percentage changes across the five variations. -/
def perform_sensitivity_analysis (base_data : List RevRecord) :
    List (RevParam × List NpVal) :=
  revParameters.map fun param =>
    (param, variations.map (impactAtLevel base_data param))

/-- A baseline series is well-formed when every record's stored
`revenueForecast` equals the aggregation formula, the invariant
`generate_sample_data` establishes. -/
def wellFormed (data : List RevRecord) : Prop :=
  ∀ r ∈ data, r.revenueForecast = revenueFormula r

instance (data : List RevRecord) : Decidable (wellFormed data) := by
  unfold wellFormed
  infer_instance

/-- The weight of each directly-scaled parameter in the revenue
aggregation formula (`monthlyRecurringRevenue` enters multiplied by 3). -/
def weight (p : RevParam) : ℚ :=
  match p with
  | RevParam.topChannelValue => 1
  | RevParam.monthlyRecurringRevenue => 3
  | RevParam.newPromotionRevenue => 1
  | _ => 0

/-- The column sum of one parameter over a series. -/
def sumField (p : RevParam) (data : List RevRecord) : ℚ :=
  (data.map (readField p)).sum

/-! ### Expense dashboard (forecast_pkg/expense_dashboard.py)

`perform_expense_sensitivity_analysis` draws two fresh numbers from the
process-wide random stream for every (parameter, variation) cell.  The
stream is modelled explicitly: `rand k` is the value `np.random.random()`
returns at the k-th draw of the run. -/

/-- The expense parameter names, in source order. -/
def expenseParameters : List String :=
  ["payrollCosts", "COGS", "operatingCost", "overheadCost",
   "inventoryValue", "RDExpenses", "marketingSalesExpenses"]

/-- One cell of the expense table:
`clamp(-50, 50, variation * (0.5 + r1) + (r2 - 0.5) * 20)` where `r1`,
`r2` are the two random draws for the cell. -/
def expenseCell (rand : ℕ → ℚ) (k : ℕ) (variation : ℚ) : ℚ :=
  let base_effect := variation * (1 / 2 + rand k)
  let random_factor := (rand (k + 1) - 1 / 2) * 20
  max (-50) (min 50 (base_effect + random_factor))

/-- One row of the expense table, consuming two draws per variation. -/
def expenseCells (rand : ℕ → ℚ) (k : ℕ) : List ℚ → List ℚ
  | [] => []
  | v :: vs => expenseCell rand k v :: expenseCells rand (k + 2) vs

/-- All rows of the expense table, ten draws per parameter. -/
def expenseTable (rand : ℕ → ℚ) (k : ℕ) : List String → List (String × List ℚ)
  | [] => []
  | p :: ps => (p, expenseCells rand k variations) :: expenseTable rand (k + 10) ps

/-- `perform_expense_sensitivity_analysis`, starting at position 0 of the
random stream it is run against. -/
def perform_expense_sensitivity_analysis (rand : ℕ → ℚ) :
    List (String × List ℚ) :=
  expenseTable rand 0 expenseParameters

/-! ### Balance-sheet dashboard (forecast_pkg/balance_sheet_dashboard.py) -/

/-- The balance-sheet parameter names, in source order. -/
def balanceParameters : List String :=
  ["cash", "accountsReceivable", "inventory", "ppe", "accountsPayable",
   "shortTermDebt", "longTermDebt", "retainedEarnings", "capex",
   "depreciationAmortization"]

/-- A pair of plain rational impact values. -/
structure QPair where
  increased : ℚ
  decreased : ℚ
deriving DecidableEq, Repr

/-- One random impact of the balance-sheet `sensitivity_analysis`:
`(r1 * 15 + 5) * (1 if r2 < 0.5 else -1)` for two fresh draws. -/
def balanceImpact (rand : ℕ → ℚ) (k : ℕ) : ℚ :=
  (rand k * 15 + 5) * (if rand (k + 1) < 1 / 2 then 1 else -1)

/-- The balance-sheet table, four draws per parameter. -/
def balanceTable (rand : ℕ → ℚ) (k : ℕ) : List String → List (String × QPair)
  | [] => []
  | p :: ps =>
    (p, { increased := balanceImpact rand k
          decreased := balanceImpact rand (k + 2) }) ::
      balanceTable rand (k + 4) ps

/-- The balance-sheet `sensitivity_analysis`, starting at position 0 of
the random stream it is run against. -/
def balance_sensitivity_analysis (rand : ℕ → ℚ) : List (String × QPair) :=
  balanceTable rand 0 balanceParameters

/-! ### The random stream made explicit for the deterministic engines

Python code can always consult the process-wide `np.random` stream; a run
is therefore modelled as taking the stream and the current cursor and
returning the result with the cursor after the run.  The cashflow and
revenue sensitivity analyses contain no random calls, so their runs leave
the cursor untouched and never read the stream. -/

/-- The cashflow sensitivity analysis run against a random stream with
cursor `k`: the source draws nothing, so the result ignores the stream
and the cursor is returned unchanged. -/
def cashflowSensRun (base_data : List CFRecord) (variation_percentage : ℚ)
    (rand : ℕ → ℚ) (k : ℕ) : List (CF × CFPair) × ℕ :=
  (sensitivity_analysis base_data variation_percentage, k)

/-- The revenue sensitivity analysis run against a random stream with
cursor `k`: the source draws nothing. -/
def revenueSensRun (base_data : List RevRecord) (rand : ℕ → ℚ) (k : ℕ) :
    List (RevParam × List NpVal) × ℕ :=
  (perform_sensitivity_analysis base_data, k)

/-- The cashflow sensitivity run paired with the baseline aggregate
recomputed after the run completes; in the source `base_data` is only
ever read by `sensitivity_analysis`, and every perturbed series is a
fresh list of fresh dicts, so the recomputation sees the same series. -/
def cashflowRunAndRecheck (base_data : List CFRecord)
    (variation_percentage : ℚ) : List (CF × CFPair) × ℚ :=
  (sensitivity_analysis base_data variation_percentage,
   cashflowAggregate base_data)

/-! ### The two-field scenario of the specification -/

/-- Modelled from the spec: the two fields of the concrete test scenario,
`{revenue: 100, cost: 40}`. -/
inductive SField where
  | revenue
  | cost
deriving DecidableEq, Repr

/-- The column sum of one field over a series of records. -/
def sumAt {α : Type} (p : α) (d : List (α → ℚ)) : ℚ :=
  (d.map fun r => r p).sum

/-- Modelled from the spec: one period of the scenario baseline. -/
def scenRecord : SField → ℚ :=
  fun f => match f with
  | SField.revenue => 100
  | SField.cost => 40

/-- Modelled from the spec: the two-period scenario baseline. -/
def scenBaseline : List (SField → ℚ) := [scenRecord, scenRecord]

/-- Modelled from the spec: the scenario aggregate
`sum(revenue) - sum(cost)`. -/
def scenAggregate (d : List (SField → ℚ)) : ℚ :=
  sumAt SField.revenue d - sumAt SField.cost d

/-- A linear aggregation function: a fixed weighted sum of the fields in
`fs`, summed over all periods. -/
def aggLinear {α : Type} (w : α → ℚ) (fs : List α)
    (d : List (α → ℚ)) : ℚ :=
  (d.map fun r => (fs.map fun f => w f * r f).sum).sum

/-- The weights presenting the scenario aggregate as a weighted sum. -/
def scenWeight : SField → ℚ :=
  fun f => match f with
  | SField.revenue => 1
  | SField.cost => -1

/-- The field list of the scenario aggregate. -/
def scenFields : List SField := [SField.revenue, SField.cost]

/-! ### Concrete sample series -/

/-- A one-quarter cashflow series with net cashflow 100. -/
def cfSample : List CFRecord :=
  [{ quarter := "Q3 2024"
     vals := fun f => match f with
       | CF.salesRevenue => 100
       | CF.accountsReceivableDays => 91
       | CF.accountsPayableDays => 91
       | _ => 0 }]

/-- A one-quarter cashflow series with zero net cashflow. -/
def cfZeroSample : List CFRecord :=
  [{ quarter := "Q3 2024"
     vals := fun f => match f with
       | CF.accountsReceivableDays => 91
       | CF.accountsPayableDays => 91
       | _ => 0 }]

/-- A two-quarter well-formed revenue series with base revenue 405. -/
def revSample : List RevRecord :=
  [{ quarter := "Q1 2024", topChannelValue := 100,
     monthlyRecurringRevenue := 10, newPromotionRevenue := 5,
     customerAcquisitionCost := 1500, customerLifetimeValue := 12000,
     inventoryTurnover := 5, revenueForecast := 135 },
   { quarter := "Q2 2024", topChannelValue := 200,
     monthlyRecurringRevenue := 20, newPromotionRevenue := 10,
     customerAcquisitionCost := 1600, customerLifetimeValue := 13000,
     inventoryTurnover := 6, revenueForecast := 270 }]

/-- A well-formed one-quarter revenue series whose aggregate is zero. -/
def revZeroSample : List RevRecord :=
  [{ quarter := "Q1 2024", topChannelValue := 100,
     monthlyRecurringRevenue := 0, newPromotionRevenue := -100,
     customerAcquisitionCost := 1500, customerLifetimeValue := 12000,
     inventoryTurnover := 5, revenueForecast := 0 }]

/-- A single revenue record with `newPromotionRevenue = 100`. -/
def revRecSample : RevRecord :=
  { quarter := "Q1 2024", topChannelValue := 100,
    monthlyRecurringRevenue := 10, newPromotionRevenue := 100,
    customerAcquisitionCost := 1500, customerLifetimeValue := 12000,
    inventoryTurnover := 5, revenueForecast := 230 }

/-! ### Delimited-text export of a revenue baseline (the CSV download)

The source only calls `data.to_csv(index=False)` and hands the text to a
download button; no parser exists in the repository, so the parsing side
is modelled from the spec's round-trip requirement.  Numeric cells are
rendered in an exact textual form (`numerator/denominator`), the analogue
of the shortest round-tripping float repr `to_csv` emits. -/

/-- The decimal digit characters. -/
def digitChar : ℕ → Char
  | 0 => '0'
  | 1 => '1'
  | 2 => '2'
  | 3 => '3'
  | 4 => '4'
  | 5 => '5'
  | 6 => '6'
  | 7 => '7'
  | 8 => '8'
  | 9 => '9'
  | _ => '*'

/-- Inverse of `digitChar` on the ten digits, computed from the code
point. -/
def charDigit? (c : Char) : Option ℕ :=
  if 48 ≤ c.toNat ∧ c.toNat ≤ 57 then some (c.toNat - 48) else none

/-- The base-10 digit characters of a natural number, most significant
first. -/
def natChars (n : ℕ) : List Char :=
  if h : n < 10 then [digitChar n]
  else natChars (n / 10) ++ [digitChar (n % 10)]
termination_by n
decreasing_by exact Nat.div_lt_self (by omega) (by omega)

/-- Folds decimal digit characters into an accumulator; fails on any
non-digit. -/
def readDigits (acc : ℕ) : List Char → Option ℕ
  | [] => some acc
  | c :: cs =>
    match charDigit? c with
    | some d => readDigits (10 * acc + d) cs
    | none => none

/-- Parses a nonempty all-digit cell. -/
def parseNatCell (cs : List Char) : Option ℕ :=
  if cs.isEmpty then none else readDigits 0 cs

/-- Renders an integer: an optional minus sign, then digits. -/
def intChars (n : ℤ) : List Char :=
  if n < 0 then '-' :: natChars n.natAbs else natChars n.natAbs

/-- Parses an optionally-signed integer cell. -/
def parseIntCell (cs : List Char) : Option ℤ :=
  match cs with
  | [] => none
  | c :: rest =>
    if c = '-' then (parseNatCell rest).map fun (m : ℕ) => -(m : ℤ)
    else (parseNatCell (c :: rest)).map fun (m : ℕ) => (m : ℤ)

/-- Renders a rational exactly as `numerator/denominator`. -/
def ratChars (q : ℚ) : List Char :=
  intChars q.num ++ '/' :: natChars q.den

/-- Splits a character list at every occurrence of a separator. -/
def splitOnChar (sep : Char) : List Char → List (List Char)
  | [] => [[]]
  | c :: cs =>
    if c = sep then [] :: splitOnChar sep cs
    else
      match splitOnChar sep cs with
      | [] => [[c]]
      | g :: gs => (c :: g) :: gs

/-- Joins cells with a separator between consecutive cells. -/
def joinWithChar (sep : Char) : List (List Char) → List Char
  | [] => []
  | [x] => x
  | x :: xs => x ++ sep :: joinWithChar sep xs

/-- Parses a `numerator/denominator` cell back into a rational. -/
def parseRatCell (cs : List Char) : Option ℚ :=
  match splitOnChar '/' cs with
  | [a, b] =>
    match parseIntCell a, parseNatCell b with
    | some n, some d => some ((n : ℚ) / (d : ℚ))
    | _, _ => none
  | _ => none

/-- The cells of one exported row: the period label then all fields, in
the column order of `generate_sample_data`. -/
def recordCells (r : RevRecord) : List (List Char) :=
  [r.quarter.data, ratChars r.topChannelValue,
   ratChars r.monthlyRecurringRevenue, ratChars r.newPromotionRevenue,
   ratChars r.customerAcquisitionCost, ratChars r.customerLifetimeValue,
   ratChars r.inventoryTurnover, ratChars r.revenueForecast]

/-- One comma-separated line of the export. -/
def rowChars (r : RevRecord) : List Char :=
  joinWithChar ',' (recordCells r)

/-- The header line `to_csv` writes for the revenue columns. -/
def headerChars : List Char :=
  "quarter,topChannelValue,monthlyRecurringRevenue,newPromotionRevenue,customerAcquisitionCost,customerLifetimeValue,inventoryTurnover,revenueForecast".data

/-- Export of a baseline series as a flat delimited text table: the
header line, then one line per period, newline-separated (terminal
newline omitted). -/
def toCSV (data : List RevRecord) : List Char :=
  joinWithChar '\n' (headerChars :: data.map rowChars)

/-- Modelled from the spec: parsing one data line back into a Period
Record (the repository ships no parser; the spec requires the round
trip). -/
def parseRow (cs : List Char) : Option RevRecord :=
  match splitOnChar ',' cs with
  | [q, c1, c2, c3, c4, c5, c6, c7] =>
    match parseRatCell c1, parseRatCell c2, parseRatCell c3,
        parseRatCell c4, parseRatCell c5, parseRatCell c6,
        parseRatCell c7 with
    | some a, some b, some c, some d, some e, some f, some g =>
      some { quarter := String.mk q, topChannelValue := a,
             monthlyRecurringRevenue := b, newPromotionRevenue := c,
             customerAcquisitionCost := d, customerLifetimeValue := e,
             inventoryTurnover := f, revenueForecast := g }
    | _, _, _, _, _, _, _ => none
  | _ => none

/-- Parses every data line, failing if any line fails. -/
def parseRows : List (List Char) → Option (List RevRecord)
  | [] => some []
  | r :: rs =>
    match parseRow r, parseRows rs with
    | some x, some xs => some (x :: xs)
    | _, _ => none

/-- Modelled from the spec: parsing the delimited text back into the
sequence of Period Records, checking the header line. -/
def parseCSV (cs : List Char) : Option (List RevRecord) :=
  match splitOnChar '\n' cs with
  | [] => none
  | h :: rows => if h = headerChars then parseRows rows else none

/-- A two-quarter series with fractional and negative values, for the
round-trip witness. -/
def csvSample : List RevRecord :=
  [{ quarter := "Q1 2024", topChannelValue := 100,
     monthlyRecurringRevenue := 10, newPromotionRevenue := 5,
     customerAcquisitionCost := 1500, customerLifetimeValue := 12000,
     inventoryTurnover := 5, revenueForecast := 135 },
   { quarter := "Q2 2024", topChannelValue := 7 / 2,
     monthlyRecurringRevenue := 0, newPromotionRevenue := -3,
     customerAcquisitionCost := 1600, customerLifetimeValue := 13000,
     inventoryTurnover := 11 / 2, revenueForecast := 1 / 2 }]

/-! ## Helper lemmas -/

/-- For a nonzero denominator `npPercent` is the exact percentage. -/
theorem npPercent_of_ne (m : ℚ) {b : ℚ} (h : b ≠ 0) :
    npPercent m b = NpVal.finite ((m - b) / b * 100) := by
  simp [npPercent, h]

/-- The dict-update perturbation of the cashflow loop coincides with the
spec's perturbation step. -/
theorem updateParam_eq_specPerturb (q : CFRecord) (p : CF) (v : ℚ) :
    updateParam q p (q.vals p * (1 + v / 100)) =
      { q with vals := specPerturb p v q.vals } := by
  unfold updateParam specPerturb
  congr 1
  funext f
  by_cases h : f = p
  · subst h; simp
  · simp [h]

/-- The decreased-data update is the spec's perturbation at the negated
level. -/
theorem updateParam_eq_specPerturb_neg (q : CFRecord) (p : CF) (v : ℚ) :
    updateParam q p (q.vals p * (1 - v / 100)) =
      { q with vals := specPerturb p (-v) q.vals } := by
  unfold updateParam specPerturb
  congr 1
  funext f
  by_cases h : f = p
  · subst h
    simp only [if_pos rfl]
    ring_nf
  · simp [h]

/-- `increased_data` is the spec perturbation of the whole series. -/
theorem increasedData_eq_spec (d : List CFRecord) (p : CF) (v : ℚ) :
    increasedData d p v = specPerturbCF p v d := by
  unfold increasedData specPerturbCF
  have h : (fun q => updateParam q p (q.vals p * (1 + v / 100))) =
      fun q : CFRecord => { q with vals := specPerturb p v q.vals } :=
    funext fun q => updateParam_eq_specPerturb q p v
  rw [h]

/-- `decreased_data` is the spec perturbation at the negated level. -/
theorem decreasedData_eq_spec (d : List CFRecord) (p : CF) (v : ℚ) :
    decreasedData d p v = specPerturbCF p (-v) d := by
  unfold decreasedData specPerturbCF
  have h : (fun q => updateParam q p (q.vals p * (1 - v / 100))) =
      fun q : CFRecord => { q with vals := specPerturb p (-v) q.vals } :=
    funext fun q => updateParam_eq_specPerturb_neg q p v
  rw [h]

/-- On a well-formed series the stored forecast column sums to the
recomputed aggregate. -/
theorem baseRevenue_eq_revAggregate {d : List RevRecord}
    (h : wellFormed d) : baseRevenue d = revAggregate d := by
  unfold baseRevenue revAggregate
  induction d with
  | nil => rfl
  | cons r rs ih =>
    simp only [List.map_cons, List.sum_cons]
    rw [h r (by simp), ih fun x hx => h x (by simp [hx])]

/-- With a nonzero baseline aggregate, the impact pair of the cashflow
loop is the spec formula at levels `v` and `-v`. -/
theorem cfImpactPair_spec (d : List CFRecord) (v : ℚ) (p : CF)
    (h : cashflowAggregate d ≠ 0) :
    cfImpactPair d v p =
      { increased := NpVal.finite (specImpactCF d p v)
        decreased := NpVal.finite (specImpactCF d p (-v)) } := by
  have h' : totalNetCashflow d 0 ≠ 0 := h
  simp only [cfImpactPair, increasedData_eq_spec, decreasedData_eq_spec,
    npPercent_of_ne _ h']
  rfl

/-! ## Claims -/

/-- C1: for every baseline with nonzero aggregate, every parameter and
every level, each impact result of the cashflow sensitivity analysis is
exactly `(aggregate(perturbed) - aggregate(baseline)) /
aggregate(baseline) * 100` for the spec's perturbed series (the decreased
variation being the level `-v`), the revenue analysis computes the same
percentage formula over its perturbed series, and on the spec's concrete
two-period scenario (`revenue`/`cost` 100/40, aggregate
`sum(revenue) - sum(cost) = 120`) level `+10` on `revenue` yields `50/3 %`
and on `cost` yields `-20/3 %`. -/
theorem c1_impact_equals_percentage_formula :
    (∀ (d : List CFRecord) (v : ℚ), cashflowAggregate d ≠ 0 →
      sensitivity_analysis d v = cfParameters.map fun p =>
        (p, { increased := NpVal.finite (specImpactCF d p v)
              decreased := NpVal.finite (specImpactCF d p (-v)) })) ∧
    (∀ (d : List RevRecord) (p : RevParam) (v : ℚ), wellFormed d →
      revAggregate d ≠ 0 →
      impactAtLevel d p v = NpVal.finite
        ((revAggregate (modifiedSeries p v d) - revAggregate d) /
          revAggregate d * 100)) ∧
    specImpact scenAggregate scenBaseline SField.revenue 10 = 50 / 3 ∧
    specImpact scenAggregate scenBaseline SField.cost 10 = -20 / 3 := by
  have hne : SField.cost ≠ SField.revenue := by decide
  have hne2 : SField.revenue ≠ SField.cost := by decide
  refine ⟨?_, ?_,
    by norm_num [specImpact, specPerturbSeries, specPerturb, scenAggregate,
      sumAt, scenBaseline, scenRecord, hne, hne2],
    by norm_num [specImpact, specPerturbSeries, specPerturb, scenAggregate,
      sumAt, scenBaseline, scenRecord, hne, hne2]⟩
  · intro d v h
    unfold sensitivity_analysis
    congr 1
    funext p
    rw [cfImpactPair_spec d v p h]
  · intro d p v hwf h
    have hb : baseRevenue d = revAggregate d := baseRevenue_eq_revAggregate hwf
    unfold impactAtLevel
    rw [hb, npPercent_of_ne _ h]
    rfl

/-- Witness for C1 at the concrete one-quarter cashflow series and the
concrete well-formed revenue series. -/
theorem c1_impact_equals_percentage_formula_witness :
    cashflowAggregate cfSample ≠ 0 ∧
    sensitivity_analysis cfSample 10 = (cfParameters.map fun p =>
      (p, { increased := NpVal.finite (specImpactCF cfSample p 10)
            decreased := NpVal.finite (specImpactCF cfSample p (-10)) })) ∧
    wellFormed revSample ∧ revAggregate revSample ≠ 0 ∧
    impactAtLevel revSample RevParam.topChannelValue 10 = NpVal.finite
      ((revAggregate (modifiedSeries RevParam.topChannelValue 10 revSample) -
          revAggregate revSample) / revAggregate revSample * 100) := by
  have hcf : cashflowAggregate cfSample ≠ 0 := by
    norm_num [cashflowAggregate, totalNetCashflow, calculate_cashflow, cfSample]
  have hwf : wellFormed revSample := by
    intro r hr
    simp only [revSample, List.mem_cons, List.not_mem_nil, or_false] at hr
    rcases hr with rfl | rfl <;> norm_num [revenueFormula]
  have hra : revAggregate revSample ≠ 0 := by
    norm_num [revAggregate, revSample, revenueFormula]
  exact ⟨hcf, c1_impact_equals_percentage_formula.1 cfSample 10 hcf,
    hwf, hra,
    c1_impact_equals_percentage_formula.2.1 revSample
      RevParam.topChannelValue 10 hwf hra⟩

/-- C2 (amended): the cashflow and revenue sensitivity analyses consume
nothing from the process-wide random stream, so two runs on the same
inputs against any two stream states produce the same impact table and
leave the stream cursor unchanged; the expense and balance-sheet
sensitivity routines, by contrast, draw fresh random values (see the
counterexample). -/
theorem c2_pure_engines_deterministic :
    ∀ (rand1 rand2 : ℕ → ℚ) (k1 k2 : ℕ),
      (∀ (d : List CFRecord) (v : ℚ),
        (cashflowSensRun d v rand1 k1).1 = (cashflowSensRun d v rand2 k2).1 ∧
        (cashflowSensRun d v rand1 k1).2 = k1) ∧
      (∀ (d : List RevRecord),
        (revenueSensRun d rand1 k1).1 = (revenueSensRun d rand2 k2).1 ∧
        (revenueSensRun d rand1 k1).2 = k1) :=
  fun _ _ _ _ => ⟨fun _ _ => ⟨rfl, rfl⟩, fun _ => ⟨rfl, rfl⟩⟩

/-- C2 counterexample: two runs of the expense (and of the balance-sheet)
sensitivity analysis against different random streams produce different
impact tables, so the result is not a function of the baseline inputs
alone. -/
theorem c2_counterexample :
    perform_expense_sensitivity_analysis (fun _ => 0) ≠
      perform_expense_sensitivity_analysis (fun _ => 1 / 2) ∧
    balance_sensitivity_analysis (fun _ => 0) ≠
      balance_sensitivity_analysis (fun _ => 1 / 2) := by
  constructor
  · intro h
    have h0 : (perform_expense_sensitivity_analysis (fun _ => 0)).head? =
        (perform_expense_sensitivity_analysis (fun _ => 1 / 2)).head? := by
      rw [h]
    norm_num [perform_expense_sensitivity_analysis, expenseTable,
      expenseCells, expenseCell, expenseParameters, variations,
      min_def, max_def] at h0
  · intro h
    have h0 : (balance_sensitivity_analysis (fun _ => 0)).head? =
        (balance_sensitivity_analysis (fun _ => 1 / 2)).head? := by
      rw [h]
    norm_num [balance_sensitivity_analysis, balanceTable, balanceImpact,
      balanceParameters] at h0

/-- C3 (amended): when the baseline aggregate is zero the cashflow
sensitivity analysis does not fail with a reported error: it still
returns a full table, and (numpy float semantics) each impact value is
one of `inf`, `-inf`, `nan`. -/
theorem c3_zero_aggregate_is_silent :
    ∀ (d : List CFRecord) (v : ℚ) (p : CF), cashflowAggregate d = 0 →
      sensitivity_analysis d v =
        (cfParameters.map fun q => (q, cfImpactPair d v q)) ∧
      (cfImpactPair d v p).increased ∈
        [NpVal.posInf, NpVal.negInf, NpVal.nan] ∧
      (cfImpactPair d v p).decreased ∈
        [NpVal.posInf, NpVal.negInf, NpVal.nan] := by
  intro d v p h
  have h' : totalNetCashflow d 0 = 0 := h
  refine ⟨rfl, ?_, ?_⟩ <;>
  · simp only [cfImpactPair, h', npPercent, if_pos rfl]
    split_ifs <;> simp

/-- Witness for C3 at a concrete one-quarter series with zero net
cashflow. -/
theorem c3_zero_aggregate_is_silent_witness :
    cashflowAggregate cfZeroSample = 0 ∧
    (sensitivity_analysis cfZeroSample 10 =
        (cfParameters.map fun q => (q, cfImpactPair cfZeroSample 10 q)) ∧
      (cfImpactPair cfZeroSample 10 CF.salesRevenue).increased ∈
        [NpVal.posInf, NpVal.negInf, NpVal.nan] ∧
      (cfImpactPair cfZeroSample 10 CF.salesRevenue).decreased ∈
        [NpVal.posInf, NpVal.negInf, NpVal.nan]) := by
  have h : cashflowAggregate cfZeroSample = 0 := by
    norm_num [cashflowAggregate, totalNetCashflow, calculate_cashflow,
      cfZeroSample]
  exact ⟨h, c3_zero_aggregate_is_silent cfZeroSample 10 CF.salesRevenue h⟩

/-- C3 counterexample: on a well-formed revenue baseline whose aggregate
is zero, `perform_sensitivity_analysis` does not fail: it silently
returns `-inf`/`nan`/`inf` impact values for `topChannelValue`. -/
theorem c3_counterexample :
    (perform_sensitivity_analysis revZeroSample).head? =
      some (RevParam.topChannelValue,
        [NpVal.negInf, NpVal.negInf, NpVal.nan, NpVal.posInf,
         NpVal.posInf]) := by
  norm_num [perform_sensitivity_analysis, revParameters, variations,
    impactAtLevel, npPercent, modifiedRevenue, modifiedSeries,
    modifyRecord, revenueFormula, baseRevenue, revZeroSample]

/-- C4 (amended): in the cashflow analysis, perturbing a parameter leaves
every other field and the period label of every period unchanged; in the
revenue analysis the same isolation holds for the three directly-scaled
parameters, but not in general (see the counterexample: the
`customerAcquisitionCost` transform rewrites `newPromotionRevenue`). -/
theorem c4_one_at_a_time_isolation :
    (∀ (d : List CFRecord) (p f : CF) (v : ℚ) (i : ℕ), f ≠ p →
      ((increasedData d p v)[i]?.map fun q => q.vals f) =
        (d[i]?.map fun q => q.vals f) ∧
      ((decreasedData d p v)[i]?.map fun q => q.vals f) =
        (d[i]?.map fun q => q.vals f) ∧
      ((increasedData d p v)[i]?.map CFRecord.quarter) =
        (d[i]?.map CFRecord.quarter) ∧
      ((decreasedData d p v)[i]?.map CFRecord.quarter) =
        (d[i]?.map CFRecord.quarter)) ∧
    (∀ (A B : RevParam) (v : ℚ) (r : RevRecord),
      A ∈ directRevParams → B ≠ A →
      readField B (modifyRecord A v r) = readField B r) := by
  constructor
  · intro d p f v i hf
    refine ⟨?_, ?_, ?_, ?_⟩ <;>
      simp only [increasedData, decreasedData, List.getElem?_map,
        Option.map_map] <;>
      cases d[i]? with
      | none => rfl
      | some q => simp [Function.comp, updateParam, hf]
  · intro A B v r hA hB
    simp only [directRevParams, List.mem_cons, List.not_mem_nil,
      or_false] at hA
    rcases hA with rfl | rfl | rfl <;> cases B <;>
      first
        | rfl
        | exact absurd rfl hB

/-- C4 counterexample: perturbing `customerAcquisitionCost` by `+10` in
the revenue analysis changes the recorded `newPromotionRevenue` of the
first period (from 100 to 90), violating one-at-a-time isolation for the
whole parameter set. -/
theorem c4_counterexample :
    ((modifiedSeries RevParam.customerAcquisitionCost 10
        [revRecSample])[0]?.map (readField RevParam.newPromotionRevenue)) ≠
      (([revRecSample] : List RevRecord)[0]?.map
        (readField RevParam.newPromotionRevenue)) := by
  norm_num [modifiedSeries, modifyRecord, readField, revRecSample]

/-- Witness for C4 at a concrete cashflow series (perturbing
`salesRevenue` leaves `capex` of period 0 unchanged) and a concrete
revenue record (perturbing `topChannelValue` leaves
`monthlyRecurringRevenue` unchanged). -/
theorem c4_one_at_a_time_isolation_witness :
    CF.capex ≠ CF.salesRevenue ∧
    ((increasedData cfSample CF.salesRevenue 10)[0]?.map
        fun q => q.vals CF.capex) =
      (cfSample[0]?.map fun q => q.vals CF.capex) ∧
    RevParam.topChannelValue ∈ directRevParams ∧
    RevParam.monthlyRecurringRevenue ≠ RevParam.topChannelValue ∧
    readField RevParam.monthlyRecurringRevenue
        (modifyRecord RevParam.topChannelValue 10 revRecSample) =
      readField RevParam.monthlyRecurringRevenue revRecSample := by
  have h1 : CF.capex ≠ CF.salesRevenue := by decide
  have h3 : RevParam.topChannelValue ∈ directRevParams := by decide
  have h4 : RevParam.monthlyRecurringRevenue ≠ RevParam.topChannelValue :=
    by decide
  exact ⟨h1,
    (c4_one_at_a_time_isolation.1 cfSample CF.salesRevenue CF.capex
      10 0 h1).1,
    h3, h4,
    c4_one_at_a_time_isolation.2 RevParam.topChannelValue
      RevParam.monthlyRecurringRevenue 10 revRecSample h3 h4⟩

/-- The dict update at the parameter's own unscaled value is the
identity record. -/
theorem updateParam_self_mul_one (q : CFRecord) (p : CF) :
    updateParam q p (q.vals p * 1) = q := by
  unfold updateParam
  have h : (fun f => if f = p then q.vals p * 1 else q.vals f) = q.vals := by
    funext f
    by_cases hf : f = p
    · subst hf; simp
    · simp [hf]
  rw [h]

/-- The increased series at level 0 is the baseline itself. -/
theorem increasedData_zero (d : List CFRecord) (p : CF) :
    increasedData d p 0 = d := by
  have h1 : (1 : ℚ) + 0 / 100 = 1 := by norm_num
  simp only [increasedData, h1, updateParam_self_mul_one, List.map_id']

/-- The decreased series at level 0 is the baseline itself. -/
theorem decreasedData_zero (d : List CFRecord) (p : CF) :
    decreasedData d p 0 = d := by
  have h1 : (1 : ℚ) - 0 / 100 = 1 := by norm_num
  simp only [decreasedData, h1, updateParam_self_mul_one, List.map_id']

/-- C5: running the cashflow sensitivity analysis never mutates the
baseline: the aggregate recomputed after the run equals the aggregate
computed before it, and the perturbation always builds a derived series
(at level 0 it reproduces the baseline series, hence its aggregate,
exactly). -/
theorem c5_baseline_never_mutated :
    ∀ (d : List CFRecord) (v : ℚ) (p : CF),
      (cashflowRunAndRecheck d v).2 = cashflowAggregate d ∧
      increasedData d p 0 = d ∧ decreasedData d p 0 = d ∧
      cashflowAggregate (increasedData d p 0) = cashflowAggregate d :=
  fun d v p => ⟨rfl, increasedData_zero d p, decreasedData_zero d p,
    by rw [increasedData_zero]⟩

/-- At level 0 the per-record revenue modification leaves the
aggregation formula unchanged, for every parameter. -/
theorem revenueFormula_modify_zero (p : RevParam) (r : RevRecord) :
    revenueFormula (modifyRecord p 0 r) = revenueFormula r := by
  cases p <;> norm_num [modifyRecord, revenueFormula]

/-- At level 0 the modified revenue is the recomputed baseline
aggregate. -/
theorem modifiedRevenue_zero (d : List RevRecord) (p : RevParam) :
    modifiedRevenue d p 0 = revAggregate d := by
  unfold modifiedRevenue modifiedSeries revAggregate
  rw [List.map_map]
  have h : revenueFormula ∘ modifyRecord p 0 = revenueFormula := by
    funext r
    exact revenueFormula_modify_zero p r
  rw [h]

/-- C6 (amended): for every well-formed revenue baseline with nonzero
aggregate and every parameter, the impact at level 0 is exactly 0, and
level 0 appears among the default variations; the expense dashboard's
table does not satisfy this (see the counterexample: its level-0 entry
is random noise). -/
theorem c6_level_zero_impact_zero :
    ∀ (d : List RevRecord) (p : RevParam), wellFormed d →
      baseRevenue d ≠ 0 →
      impactAtLevel d p 0 = NpVal.finite 0 ∧ (0 : ℚ) ∈ variations := by
  intro d p hwf h
  have hb : baseRevenue d = revAggregate d := baseRevenue_eq_revAggregate hwf
  have h' : revAggregate d ≠ 0 := hb ▸ h
  constructor
  · unfold impactAtLevel
    rw [modifiedRevenue_zero, hb, npPercent_of_ne _ h']
    simp
  · simp [variations]

/-- Witness for C6 at the concrete well-formed revenue series. -/
theorem c6_level_zero_impact_zero_witness :
    wellFormed revSample ∧ baseRevenue revSample ≠ 0 ∧
    (impactAtLevel revSample RevParam.inventoryTurnover 0 =
        NpVal.finite 0 ∧ (0 : ℚ) ∈ variations) := by
  have hwf : wellFormed revSample := by
    intro r hr
    simp only [revSample, List.mem_cons, List.not_mem_nil, or_false] at hr
    rcases hr with rfl | rfl <;> norm_num [revenueFormula]
  have hb : baseRevenue revSample ≠ 0 := by
    norm_num [baseRevenue, revSample]
  exact ⟨hwf, hb,
    c6_level_zero_impact_zero revSample RevParam.inventoryTurnover hwf hb⟩

/-- C6 counterexample: run against the all-zeros random stream, the
expense sensitivity table's first row is `[-20, -15, -10, -5, 0]`; its
entry for variation 0 (the third column) is `-10 ≠ 0`. -/
theorem c6_counterexample :
    (perform_expense_sensitivity_analysis (fun _ => 0)).head? =
      some ("payrollCosts", [-20, -15, -10, -5, 0]) ∧
    variations[2]? = some 0 ∧ ((-10 : ℚ) ≠ 0) := by
  refine ⟨?_, rfl, by norm_num⟩
  norm_num [perform_expense_sensitivity_analysis, expenseTable,
    expenseCells, expenseCell, expenseParameters, variations,
    min_def, max_def]

/-- One record's weighted sum after the spec perturbation: each
occurrence of the perturbed field contributes `v/100 · w p · r p` extra. -/
theorem perturb_weighted_sum {α : Type} [DecidableEq α] (w : α → ℚ)
    (p : α) (v : ℚ) (r : α → ℚ) :
    ∀ fs : List α,
      (fs.map fun f => w f * specPerturb p v r f).sum =
        (fs.map fun f => w f * r f).sum +
          v / 100 * (w p * r p) * (fs.count p : ℚ)
  | [] => by simp
  | f :: fs => by
    simp only [List.map_cons, List.sum_cons,
      perturb_weighted_sum w p v r fs, List.count_cons]
    by_cases h : f = p
    · subst h
      simp only [specPerturb, if_pos rfl, beq_self_eq_true, if_true]
      push_cast
      ring
    · have hb : (f == p) = false := by simp [h]
      simp only [specPerturb, if_neg h, hb, if_false]
      push_cast
      ring

/-- The linear aggregate of the spec-perturbed series. -/
theorem aggLinear_perturb {α : Type} [DecidableEq α] (w : α → ℚ)
    (fs : List α) (p : α) (v : ℚ) :
    ∀ d : List (α → ℚ),
      aggLinear w fs (specPerturbSeries p v d) =
        aggLinear w fs d + v / 100 * (w p * sumAt p d) * (fs.count p : ℚ)
  | [] => by simp [aggLinear, specPerturbSeries, sumAt]
  | r :: d => by
    have ih := aggLinear_perturb w fs p v d
    simp only [aggLinear, specPerturbSeries, sumAt, List.map_cons,
      List.sum_cons] at ih ⊢
    rw [perturb_weighted_sum, ih]
    ring

/-- For a directly-scaled revenue parameter the per-record formula grows
by `v/100 · weight · value`. -/
theorem revenueFormula_modify_direct (p : RevParam)
    (hp : p ∈ directRevParams) (v : ℚ) (r : RevRecord) :
    revenueFormula (modifyRecord p v r) =
      revenueFormula r + v / 100 * (weight p * readField p r) := by
  simp only [directRevParams, List.mem_cons, List.not_mem_nil,
    or_false] at hp
  rcases hp with rfl | rfl | rfl <;>
    simp only [modifyRecord, revenueFormula, weight, readField] <;> ring

/-- For a directly-scaled parameter, the modified revenue grows linearly
with the level. -/
theorem modifiedRevenue_direct (d : List RevRecord) (p : RevParam)
    (hp : p ∈ directRevParams) (v : ℚ) :
    modifiedRevenue d p v =
      revAggregate d + v / 100 * (weight p * sumField p d) := by
  induction d with
  | nil => simp [modifiedRevenue, modifiedSeries, revAggregate, sumField]
  | cons r d ih =>
    simp only [modifiedRevenue, modifiedSeries, revAggregate, sumField,
      List.map_cons, List.sum_cons] at ih ⊢
    rw [revenueFormula_modify_direct p hp, ih]
    ring

/-- C7: for every linear aggregation function (a weighted sum of a field
list containing the parameter exactly once) the spec engine's Impact
Result at level `v` is `v` times the parameter's weighted share of the
baseline aggregate; the revenue analysis realizes the same linear law for
its three directly-scaled parameters, at every level. -/
theorem c7_linear_scaling :
    (∀ {α : Type} [DecidableEq α] (w : α → ℚ) (fs : List α)
      (d : List (α → ℚ)) (p : α) (v : ℚ), fs.count p = 1 →
      specImpact (aggLinear w fs) d p v =
        v * (w p * sumAt p d) / aggLinear w fs d) ∧
    (∀ (d : List RevRecord) (p : RevParam) (v : ℚ),
      p ∈ directRevParams → wellFormed d → baseRevenue d ≠ 0 →
      impactAtLevel d p v =
        NpVal.finite (v * (weight p * sumField p d) / baseRevenue d)) := by
  constructor
  · intro α inst w fs d p v hc
    unfold specImpact
    rw [aggLinear_perturb, hc]
    push_cast
    ring
  · intro d p v hp hwf h
    have hb : baseRevenue d = revAggregate d := baseRevenue_eq_revAggregate hwf
    unfold impactAtLevel
    rw [modifiedRevenue_direct d p hp, hb, npPercent_of_ne _ (hb ▸ h)]
    congr 1
    ring

/-- Witness for C7 on the scenario aggregate (weights 1 and -1) and on
the concrete revenue series with the triple-weighted
`monthlyRecurringRevenue`. -/
theorem c7_linear_scaling_witness :
    scenFields.count SField.revenue = 1 ∧
    specImpact (aggLinear scenWeight scenFields) scenBaseline
        SField.revenue 10 =
      10 * (scenWeight SField.revenue * sumAt SField.revenue scenBaseline) /
        aggLinear scenWeight scenFields scenBaseline ∧
    RevParam.monthlyRecurringRevenue ∈ directRevParams ∧
    wellFormed revSample ∧ baseRevenue revSample ≠ 0 ∧
    impactAtLevel revSample RevParam.monthlyRecurringRevenue 10 =
      NpVal.finite (10 * (weight RevParam.monthlyRecurringRevenue *
          sumField RevParam.monthlyRecurringRevenue revSample) /
        baseRevenue revSample) := by
  have hc : scenFields.count SField.revenue = 1 := by decide
  have hp : RevParam.monthlyRecurringRevenue ∈ directRevParams := by decide
  have hwf : wellFormed revSample := by
    intro r hr
    simp only [revSample, List.mem_cons, List.not_mem_nil, or_false] at hr
    rcases hr with rfl | rfl <;> norm_num [revenueFormula]
  have hb : baseRevenue revSample ≠ 0 := by
    norm_num [baseRevenue, revSample]
  exact ⟨hc,
    c7_linear_scaling.1 scenWeight scenFields scenBaseline
      SField.revenue 10 hc,
    hp, hwf, hb,
    c7_linear_scaling.2 revSample RevParam.monthlyRecurringRevenue
      10 hp hwf hb⟩

/-- C8: the revenue analysis applies per-parameter non-direct transforms:
perturbing `customerAcquisitionCost` at level `v` multiplies
`newPromotionRevenue` by the inverse factor `(1 - v/100)`, and perturbing
`inventoryTurnover` at level `v` multiplies `topChannelValue` by the
dampened factor `(1 + v/200)`; in both cases the usual percentage-impact
formula is then applied to the transformed series. -/
theorem c8_inverse_and_dampened_transforms :
    ∀ (r : RevRecord) (v : ℚ) (d : List RevRecord),
      modifyRecord RevParam.customerAcquisitionCost v r =
        { r with newPromotionRevenue :=
            r.newPromotionRevenue * (1 - v / 100) } ∧
      modifyRecord RevParam.inventoryTurnover v r =
        { r with topChannelValue := r.topChannelValue * (1 + v / 200) } ∧
      impactAtLevel d RevParam.customerAcquisitionCost v =
        npPercent
          (((d.map fun q => { q with newPromotionRevenue :=
              q.newPromotionRevenue * (1 - v / 100) }).map
            revenueFormula).sum)
          (baseRevenue d) ∧
      impactAtLevel d RevParam.inventoryTurnover v =
        npPercent
          (((d.map fun q => { q with topChannelValue :=
              q.topChannelValue * (1 + v / 200) }).map
            revenueFormula).sum)
          (baseRevenue d) :=
  fun r v d => ⟨rfl, rfl, rfl, rfl⟩

/-- The cashflow calculation never reads `inventoryTurnover`,
`seasonalFactor`, `supplierCreditDays` or `fxRate`, so perturbing one of
them leaves every net cashflow unchanged. -/
theorem totalNet_update_unread (d : List CFRecord) (p : CF)
    (hp : p ∈ [CF.inventoryTurnover, CF.seasonalFactor,
      CF.supplierCreditDays, CF.fxRate]) (v : ℚ) :
    totalNetCashflow (increasedData d p v) 0 = totalNetCashflow d 0 ∧
    totalNetCashflow (decreasedData d p v) 0 = totalNetCashflow d 0 := by
  constructor <;>
  · simp only [totalNetCashflow, calculate_cashflow, increasedData,
      decreasedData, List.map_map]
    refine congrArg List.sum (List.map_congr_left fun q hq => ?_)
    fin_cases hp <;> simp [updateParam]

/-- C10: in the cashflow sensitivity analysis with nonzero baseline net
cashflow, the parameters `inventoryTurnover`, `seasonalFactor`,
`supplierCreditDays` and `fxRate` always get an impact of exactly 0 for
both the increased and the decreased variation, because
`calculate_cashflow` never reads those fields. -/
theorem c10_unread_params_zero_impact :
    ∀ (d : List CFRecord) (v : ℚ), cashflowAggregate d ≠ 0 →
      sensitivity_analysis d v =
        (cfParameters.map fun q => (q, cfImpactPair d v q)) ∧
      ∀ p ∈ [CF.inventoryTurnover, CF.seasonalFactor,
          CF.supplierCreditDays, CF.fxRate],
        cfImpactPair d v p =
          { increased := NpVal.finite 0, decreased := NpVal.finite 0 } := by
  intro d v h
  refine ⟨rfl, fun p hp => ?_⟩
  have h' : totalNetCashflow d 0 ≠ 0 := h
  obtain ⟨hi, hd⟩ := totalNet_update_unread d p hp v
  simp only [cfImpactPair, hi, hd, npPercent_of_ne _ h']
  norm_num

/-- Witness for C10 at the concrete cashflow series, perturbing
`fxRate`. -/
theorem c10_unread_params_zero_impact_witness :
    cashflowAggregate cfSample ≠ 0 ∧
    CF.fxRate ∈ [CF.inventoryTurnover, CF.seasonalFactor,
      CF.supplierCreditDays, CF.fxRate] ∧
    cfImpactPair cfSample 10 CF.fxRate =
      { increased := NpVal.finite 0, decreased := NpVal.finite 0 } := by
  have h : cashflowAggregate cfSample ≠ 0 := by
    norm_num [cashflowAggregate, totalNetCashflow, calculate_cashflow,
      cfSample]
  have hm : CF.fxRate ∈ [CF.inventoryTurnover, CF.seasonalFactor,
      CF.supplierCreditDays, CF.fxRate] := by decide
  exact ⟨h, hm,
    (c10_unread_params_zero_impact cfSample 10 h).2 CF.fxRate hm⟩

/-- Reading back the digit character of a digit. -/
theorem charDigit?_digitChar {d : ℕ} (h : d < 10) :
    charDigit? (digitChar d) = some d := by
  interval_cases d <;> decide

/-- A digit character is not a sign, slash, comma or newline. -/
theorem digitChar_not_special {d : ℕ} (h : d < 10) :
    digitChar d ≠ '-' ∧ digitChar d ≠ '/' ∧ digitChar d ≠ ',' ∧
      digitChar d ≠ '\n' := by
  interval_cases d <;> decide

/-- `readDigits` distributes over append. -/
theorem readDigits_append (acc : ℕ) (xs ys : List Char) :
    readDigits acc (xs ++ ys) =
      (readDigits acc xs).bind fun a => readDigits a ys := by
  induction xs generalizing acc with
  | nil => simp [readDigits]
  | cons c cs ih =>
    simp only [List.cons_append, readDigits]
    cases charDigit? c with
    | none => simp
    | some d => simp [ih]

/-- Reading the rendered digits of `n` appends `n` to the accumulator in
base 10. -/
theorem readDigits_natChars (n : ℕ) :
    ∀ acc, readDigits acc (natChars n) =
      some (acc * 10 ^ (natChars n).length + n) := by
  induction n using Nat.strong_induction_on with
  | _ n ih =>
    intro acc
    by_cases h : n < 10
    · rw [natChars, dif_pos h]
      simp [readDigits, charDigit?_digitChar h]
      omega
    · rw [natChars, dif_neg h]
      rw [readDigits_append,
        ih (n / 10) (Nat.div_lt_self (by omega) (by omega)) acc]
      have hm : n % 10 < 10 := Nat.mod_lt n (by omega)
      simp only [Option.some_bind, readDigits, charDigit?_digitChar hm,
        List.length_append, List.length_cons, List.length_nil]
      rw [pow_succ, ← mul_assoc]
      have hdm := Nat.div_add_mod n 10
      congr 1
      set M := acc * 10 ^ (natChars (n / 10)).length with hM
      omega

/-- `natChars` is never empty. -/
theorem natChars_ne_nil (n : ℕ) : natChars n ≠ [] := by
  rw [natChars]
  split <;> simp

/-- Every character of `natChars` is a digit character. -/
theorem mem_natChars {c : Char} :
    ∀ {n : ℕ}, c ∈ natChars n → ∃ d, d < 10 ∧ c = digitChar d := by
  intro n
  induction n using Nat.strong_induction_on with
  | _ n ih =>
    intro hc
    rw [natChars] at hc
    split at hc
    case isTrue h =>
      refine ⟨n, h, ?_⟩
      simpa using hc
    case isFalse h =>
      rcases List.mem_append.mp hc with h1 | h2
      · exact ih (n / 10) (Nat.div_lt_self (by omega) (by omega)) h1
      · exact ⟨n % 10, Nat.mod_lt n (by omega), by simpa using h2⟩

/-- `natChars` starts with a digit character. -/
theorem natChars_head (n : ℕ) :
    ∃ d t, d < 10 ∧ natChars n = digitChar d :: t := by
  induction n using Nat.strong_induction_on with
  | _ n ih =>
    rw [natChars]
    split
    case isTrue h => exact ⟨n, [], h, rfl⟩
    case isFalse h =>
      obtain ⟨d, t, hd, ht⟩ :=
        ih (n / 10) (Nat.div_lt_self (by omega) (by omega))
      exact ⟨d, t ++ [digitChar (n % 10)], hd, by rw [ht]; rfl⟩

/-- Parsing the rendered digits of `n` gives back `n`. -/
theorem parseNatCell_natChars (n : ℕ) :
    parseNatCell (natChars n) = some n := by
  unfold parseNatCell
  rw [if_neg (by simp [natChars_ne_nil]), readDigits_natChars n 0]
  simp

/-- None of the separator characters occurs in `natChars`. -/
theorem not_mem_natChars (n : ℕ) {c : Char}
    (hc : c = '-' ∨ c = '/' ∨ c = ',' ∨ c = '\n') : c ∉ natChars n := by
  intro hm
  obtain ⟨d, hd, rfl⟩ := mem_natChars hm
  obtain ⟨h1, h2, h3, h4⟩ := digitChar_not_special hd
  rcases hc with h | h | h | h
  · exact h1 h
  · exact h2 h
  · exact h3 h
  · exact h4 h

/-- Every character of `intChars` is a minus sign or a digit. -/
theorem mem_intChars {n : ℤ} {c : Char} (hc : c ∈ intChars n) :
    c = '-' ∨ ∃ d, d < 10 ∧ c = digitChar d := by
  unfold intChars at hc
  split at hc
  · rcases List.mem_cons.mp hc with rfl | h
    · exact Or.inl rfl
    · exact Or.inr (mem_natChars h)
  · exact Or.inr (mem_natChars hc)

/-- Slash, comma and newline do not occur in `intChars`. -/
theorem not_mem_intChars (n : ℤ) {c : Char}
    (hc : c = '/' ∨ c = ',' ∨ c = '\n') : c ∉ intChars n := by
  intro hm
  rcases mem_intChars hm with rfl | ⟨d, hd, rfl⟩
  · rcases hc with h | h | h <;> exact absurd h (by decide)
  · obtain ⟨h1, h2, h3, h4⟩ := digitChar_not_special hd
    rcases hc with h | h | h
    · exact h2 h
    · exact h3 h
    · exact h4 h

/-- Parsing the rendered integer gives it back. -/
theorem parseIntCell_intChars (n : ℤ) :
    parseIntCell (intChars n) = some n := by
  by_cases h : n < 0
  · unfold intChars
    rw [if_pos h]
    simp only [parseIntCell, eq_self_iff_true, if_true,
      parseNatCell_natChars, Option.map_some']
    congr 1
    omega
  · unfold intChars
    rw [if_neg h]
    obtain ⟨d, t, hd, ht⟩ := natChars_head n.natAbs
    rw [ht]
    simp only [parseIntCell, if_neg (digitChar_not_special hd).1, ← ht,
      parseNatCell_natChars, Option.map_some']
    congr 1
    omega

/-- Splitting a separator-free list gives one cell. -/
theorem splitOnChar_of_not_mem {sep : Char} :
    ∀ {xs : List Char}, sep ∉ xs → splitOnChar sep xs = [xs]
  | [], _ => rfl
  | c :: cs, h => by
    have hc : c ≠ sep := fun hcc => h (hcc ▸ List.mem_cons_self c cs)
    have hcs : sep ∉ cs := fun hm => h (List.mem_cons_of_mem c hm)
    simp only [splitOnChar, if_neg hc, splitOnChar_of_not_mem hcs]

/-- Splitting after a separator-free prefix peels off that prefix. -/
theorem splitOnChar_append {sep : Char} :
    ∀ {xs : List Char}, sep ∉ xs → ∀ ys : List Char,
      splitOnChar sep (xs ++ sep :: ys) = xs :: splitOnChar sep ys
  | [], _, ys => by simp [splitOnChar]
  | c :: cs, h, ys => by
    have hc : c ≠ sep := fun hcc => h (hcc ▸ List.mem_cons_self c cs)
    have hcs : sep ∉ cs := fun hm => h (List.mem_cons_of_mem c hm)
    simp only [List.cons_append, splitOnChar, if_neg hc, List.append_eq,
      splitOnChar_append hcs ys]

/-- Splitting undoes joining when no cell contains the separator. -/
theorem splitOnChar_joinWithChar {sep : Char} :
    ∀ cells : List (List Char), cells ≠ [] →
      (∀ cell ∈ cells, sep ∉ cell) →
      splitOnChar sep (joinWithChar sep cells) = cells
  | [], h, _ => absurd rfl h
  | [x], _, hx => by
    simp only [joinWithChar]
    exact splitOnChar_of_not_mem (hx x (List.mem_cons_self x []))
  | x :: y :: ys, _, hx => by
    simp only [joinWithChar]
    rw [splitOnChar_append (hx x (List.mem_cons_self x (y :: ys)))]
    rw [splitOnChar_joinWithChar (y :: ys) (by simp)
      fun c hc => hx c (List.mem_cons_of_mem x hc)]

/-- A character of a joined list is the separator or sits in some cell. -/
theorem mem_joinWithChar {sep c : Char} :
    ∀ {cells : List (List Char)}, c ∈ joinWithChar sep cells →
      c = sep ∨ ∃ cell ∈ cells, c ∈ cell
  | [], h => by simp [joinWithChar] at h
  | [x], h => by
    simp only [joinWithChar] at h
    exact Or.inr ⟨x, List.mem_cons_self x [], h⟩
  | x :: y :: ys, h => by
    simp only [joinWithChar, List.mem_append, List.mem_cons] at h
    rcases h with hx | rfl | hrest
    · exact Or.inr ⟨x, List.mem_cons_self x (y :: ys), hx⟩
    · exact Or.inl rfl
    · rcases mem_joinWithChar hrest with h1 | ⟨cell, hc, hcc⟩
      · exact Or.inl h1
      · exact Or.inr ⟨cell, List.mem_cons_of_mem x hc, hcc⟩

/-- Every character of `ratChars` is a sign, slash, or digit. -/
theorem mem_ratChars {q : ℚ} {c : Char} (hc : c ∈ ratChars q) :
    c = '-' ∨ c = '/' ∨ ∃ d, d < 10 ∧ c = digitChar d := by
  unfold ratChars at hc
  rcases List.mem_append.mp hc with h | h
  · rcases mem_intChars h with h1 | h2
    · exact Or.inl h1
    · exact Or.inr (Or.inr h2)
  · rcases List.mem_cons.mp h with rfl | h2
    · exact Or.inr (Or.inl rfl)
    · exact Or.inr (Or.inr (mem_natChars h2))

/-- Comma and newline do not occur in a rendered rational. -/
theorem not_mem_ratChars (q : ℚ) {c : Char}
    (hc : c = ',' ∨ c = '\n') : c ∉ ratChars q := by
  intro hm
  rcases mem_ratChars hm with rfl | rfl | ⟨d, hd, rfl⟩
  · rcases hc with h | h <;> exact absurd h (by decide)
  · rcases hc with h | h <;> exact absurd h (by decide)
  · obtain ⟨h1, h2, h3, h4⟩ := digitChar_not_special hd
    rcases hc with h | h
    · exact h3 h
    · exact h4 h

/-- Parsing a rendered rational gives it back. -/
theorem parseRatCell_ratChars (q : ℚ) :
    parseRatCell (ratChars q) = some q := by
  unfold parseRatCell ratChars
  rw [splitOnChar_append (not_mem_intChars q.num (Or.inl rfl)),
    splitOnChar_of_not_mem
      (not_mem_natChars q.den (Or.inr (Or.inl rfl)))]
  simp only [parseIntCell_intChars, parseNatCell_natChars]
  rw [Rat.num_div_den]

/-- Newline never occurs in an exported row with a clean label. -/
theorem not_mem_rowChars (r : RevRecord)
    (h1 : '\n' ∉ r.quarter.data) : '\n' ∉ rowChars r := by
  intro hm
  rcases mem_joinWithChar hm with h | ⟨cell, hcell, hc⟩
  · exact absurd h (by decide)
  · simp only [recordCells, List.mem_cons, List.not_mem_nil,
      or_false] at hcell
    rcases hcell with rfl | rfl | rfl | rfl | rfl | rfl | rfl | rfl
    · exact h1 hc
    all_goals exact not_mem_ratChars _ (Or.inr rfl) hc

/-- Parsing an exported row with a clean label gives back the record. -/
theorem parseRow_rowChars (r : RevRecord)
    (h1 : ',' ∉ r.quarter.data) : parseRow (rowChars r) = some r := by
  unfold parseRow rowChars
  rw [splitOnChar_joinWithChar (recordCells r) (by simp [recordCells]) ?hcells]
  case hcells =>
    intro cell hcell
    simp only [recordCells, List.mem_cons, List.not_mem_nil,
      or_false] at hcell
    rcases hcell with rfl | rfl | rfl | rfl | rfl | rfl | rfl | rfl
    · exact h1
    all_goals exact not_mem_ratChars _ (Or.inl rfl)
  simp only [recordCells, parseRatCell_ratChars]

/-- Parsing every exported row gives back the series. -/
theorem parseRows_map (d : List RevRecord)
    (h : ∀ r ∈ d, ',' ∉ r.quarter.data) :
    parseRows (d.map rowChars) = some d := by
  induction d with
  | nil => rfl
  | cons r rs ih =>
    simp only [List.map_cons, parseRows,
      parseRow_rowChars r (h r (List.mem_cons_self r rs)),
      ih fun x hx => h x (List.mem_cons_of_mem r hx)]

/-- C9: exporting a baseline series to the delimited text format and
parsing the text back reproduces the same sequence of Period Records,
field for field and in the same order, provided no period label contains
the comma or newline separator. -/
theorem c9_csv_round_trip :
    ∀ d : List RevRecord,
      (∀ r ∈ d, ',' ∉ r.quarter.data ∧ '\n' ∉ r.quarter.data) →
      parseCSV (toCSV d) = some d := by
  intro d h
  unfold parseCSV toCSV
  rw [splitOnChar_joinWithChar (headerChars :: d.map rowChars)
    (by simp) ?hlines]
  case hlines =>
    intro cell hcell
    rcases List.mem_cons.mp hcell with rfl | hm
    · decide
    · obtain ⟨r, hr, rfl⟩ := List.mem_map.mp hm
      exact not_mem_rowChars r (h r hr).2
  show (if headerChars = headerChars then parseRows (d.map rowChars)
    else none) = some d
  rw [if_pos rfl]
  exact parseRows_map d fun r hr => (h r hr).1

/-- Witness for C9 at a concrete two-quarter series with fractional and
negative values. -/
theorem c9_csv_round_trip_witness :
    (∀ r ∈ csvSample, ',' ∉ r.quarter.data ∧ '\n' ∉ r.quarter.data) ∧
    parseCSV (toCSV csvSample) = some csvSample := by
  have h : ∀ r ∈ csvSample, ',' ∉ r.quarter.data ∧ '\n' ∉ r.quarter.data := by
    intro r hr
    simp only [csvSample, List.mem_cons, List.not_mem_nil, or_false] at hr
    rcases hr with rfl | rfl <;> exact ⟨by decide, by decide⟩
  exact ⟨h, c9_csv_round_trip csvSample h⟩
